import Mathlib

/-!
Verification of the `runt` test-harness core (run.go and the T test-context
file) against its specification.

The embedding is a shallow one:

* A Go `T` value is a `Frame`: name, log buffer, `failed` and `skipped`
  flags.  The `strings.Builder` log buffer is represented by the ordered
  list of strings written to it; `Logs()` is their concatenation.
* The live parent chain of the currently executing context is a `Stack`
  (head = current context, tail = its ancestors up to the root), so the
  in-place mutations that `Fail` performs on ancestors become pure
  functions on the stack.
* Test logic is a syntax `Prog` of the testing.TB operations the harness
  offers, plus `abort` for a raw Go `panic` with an arbitrary value;
  `exec` interprets a `Prog`, returning the updated stack and an
  `Outcome`: normal return or a propagating panic carrying a `PanicVal`
  (`testFailed{}` marker, `testSkipped{}` marker, or any other value,
  kept as its `%v` rendering).
* `runSubtest` embeds `T.Run` (including its `defer`/`recover` block and
  Go's zero-value result on a recovered panic), and `run` embeds the
  top-level `Run` of run.go.
-/

namespace Runt

/-- One Go `T` test context: its name, the sequence of strings written to
its `strings.Builder` log, and the `failed` / `skipped` flags. -/
structure Frame where
  name : String
  logs : List String
  failed : Bool
  skipped : Bool
deriving DecidableEq, Inhabited

/-- `New(ctx, name)` from the source: fresh context, empty log, clear flags. -/
def Frame.init (name : String) : Frame :=
  { name := name, logs := [], failed := false, skipped := false }

/-- `Logs()`: the accumulated log text, the concatenation of all writes. -/
def Frame.logText (f : Frame) : String := String.join f.logs

/-- The chain of live contexts: head is the current context, the tail its
ancestors, the root last. -/
abbrev Stack := List Frame

/-- A Go panic value as the harness distinguishes it: the `testFailed{}`
marker, the `testSkipped{}` marker, or any other value, represented by its
`%v` rendering. -/
inductive PanicVal where
  | testFailed
  | testSkipped
  | other (rendered : String)
deriving DecidableEq

/-- How one invocation of test logic ends: normal return, or a panic
propagating a `PanicVal`. -/
inductive Outcome where
  | normal
  | panicked (v : PanicVal)
deriving DecidableEq

/-- Test logic, as the syntax of operations offered by the harness.
`log`/`logf` carry the already-rendered line (Go renders `args...` or the
format string before appending); likewise for the other logging calls.
`abort` is a raw Go `panic(v)` inside user code. -/
inductive Prog where
  | nop
  | log (s : String)
  | logf (s : String)
  | error (s : String)
  | errorf (s : String)
  | fail
  | failNow
  | fatal (s : String)
  | fatalf (s : String)
  | skipNow
  | skip (s : String)
  | skipf (s : String)
  | abort (v : PanicVal)
  | run (name : String) (body : Prog)
  | seq (p q : Prog)
deriving DecidableEq

/-- `Log`/`Logf` on the current context: `fmt.Fprintln`/`Fprintf` append the
rendered text plus a trailing newline to its builder. -/
def logTop (s : String) : Stack → Stack
  | [] => []
  | f :: rest => { f with logs := f.logs ++ [s ++ "\n"] } :: rest

/-- `Fail` on the current context: `e.failed = true` after recursively
calling `parent.Fail()`, so every frame of the chain is marked. -/
def failAll (st : Stack) : Stack :=
  st.map fun f => { f with failed := true }

/-- The flag assignment `e.failed = true` of `FailNow`: the current context
only, no recursion into the parent. -/
def failTop : Stack → Stack
  | [] => []
  | f :: rest => { f with failed := true } :: rest

/-- The flag assignment `e.skipped = true` of `SkipNow`: the current context
only. -/
def skipTop : Stack → Stack
  | [] => []
  | f :: rest => { f with skipped := true } :: rest

/-- Models the text produced by the execution-trace capture facility
(`runtime/debug.Stack()`), an OS-facing collaborator whose contents are
environment-dependent; treated as an opaque string. -/
def stackTrace : String := "goroutine 1 [running]: trace"

/-- The `defer`/`recover` block of `T.Run`: markers are absorbed silently;
any other panic value is recorded on the child via
`sub.Errorf("PANIC: %v", x)` followed by `sub.Error(debug.Stack())`, each of
which logs to the child and marks the whole chain failed via `Fail`. -/
def recoverSub : Stack × Outcome → Stack
  | (st, Outcome.normal) => st
  | (st, Outcome.panicked PanicVal.testFailed) => st
  | (st, Outcome.panicked PanicVal.testSkipped) => st
  | (st, Outcome.panicked (PanicVal.other v)) =>
      failAll (logTop stackTrace (failAll (logTop ("PANIC: " ++ v) st)))

/-- After the recover block runs, the child frame goes out of scope: pop it,
keeping every mutation it made to its ancestors. -/
def subtestFinish (r : Stack × Outcome) : Stack :=
  (recoverSub r).tail

/-- The boolean `T.Run` hands back: `!sub.Failed()` when the callback
returned normally; on a recovered panic the `return` statement never ran,
so the unnamed result keeps Go's zero value `false`. -/
def subtestReturn : Stack × Outcome → Bool
  | (st, Outcome.normal) => !(st.headD default).failed
  | (_, Outcome.panicked _) => false

/-- The interpreter: runs test logic on the current context chain,
mirroring the source operation by operation (`Error` = `Log` then `Fail`,
`Fatal` = `Log` then `FailNow`, `Skip` = `Log` then `SkipNow`, `T.Run`
pushes a child frame and intercepts its panics, `seq` stops at the first
propagating panic). -/
def exec : Prog → Stack → Stack × Outcome
  | Prog.nop, st => (st, Outcome.normal)
  | Prog.log s, st => (logTop s st, Outcome.normal)
  | Prog.logf s, st => (logTop s st, Outcome.normal)
  | Prog.error s, st => (failAll (logTop s st), Outcome.normal)
  | Prog.errorf s, st => (failAll (logTop s st), Outcome.normal)
  | Prog.fail, st => (failAll st, Outcome.normal)
  | Prog.failNow, st => (failTop st, Outcome.panicked PanicVal.testFailed)
  | Prog.fatal s, st => (failTop (logTop s st), Outcome.panicked PanicVal.testFailed)
  | Prog.fatalf s, st => (failTop (logTop s st), Outcome.panicked PanicVal.testFailed)
  | Prog.skipNow, st => (skipTop st, Outcome.panicked PanicVal.testSkipped)
  | Prog.skip s, st => (skipTop (logTop s st), Outcome.panicked PanicVal.testSkipped)
  | Prog.skipf s, st => (skipTop (logTop s st), Outcome.panicked PanicVal.testSkipped)
  | Prog.abort v, st => (st, Outcome.panicked v)
  | Prog.run name body, st =>
      (subtestFinish (exec body (Frame.init name :: st)), Outcome.normal)
  | Prog.seq p q, st =>
      match exec p st with
      | (st1, Outcome.normal) => exec q st1
      | (st1, out) => (st1, out)

/-- `T.Run(name, cb)` as seen by its caller: the parent chain after the
subtest, and the boolean result. -/
def runSubtest (name : String) (body : Prog) (st : Stack) : Stack × Bool :=
  (subtestFinish (exec body (Frame.init name :: st)),
   subtestReturn (exec body (Frame.init name :: st)))

/-- The child context's state at the moment `T.Run`'s recover block has
finished (after any unexpected-panic recording), i.e. when its flags are
read for the return value. -/
def childFrame (name : String) (body : Prog) (st : Stack) : Frame :=
  (recoverSub (exec body (Frame.init name :: st))).headD default

/-- The recover block of the top-level `Run` in run.go: markers absorbed
silently; any other value recorded via `t.Errorf("PANIC: %v", x)` only (no
trace capture at this boundary). -/
def recoverTop : Stack × Outcome → Stack
  | (st, Outcome.panicked (PanicVal.other v)) => failAll (logTop ("PANIC: " ++ v) st)
  | (st, _) => st

/-- The root context's state when the top-level `Run` inspects it. -/
def rootAfter (body : Prog) : Frame :=
  (recoverTop (exec body [Frame.init "test"])).headD default

/-- `Run(ctx, cb)` from run.go: create the root `T` named "test", run the
callback under the recover block, then return
`fmt.Errorf("test failed:\n%s", t.Logs())` if `t.Failed()`, else nil.
`some msg` stands for a non-nil error. -/
def run (body : Prog) : Option String :=
  cond (rootAfter body).failed
    (some ("test failed:\n" ++ (rootAfter body).logText))
    none

/-- Substring search over the underlying character lists (used to state
"the message contains / does not contain" properties). -/
def hasSubAux (pat : List Char) : List Char → Bool
  | [] => pat.isEmpty
  | c :: rest => pat.isPrefixOf (c :: rest) || hasSubAux pat rest

/-- `hasSubstr s pat` is true when `pat` occurs contiguously in `s`. -/
def hasSubstr (s pat : String) : Bool := hasSubAux pat.toList s.toList

/-- One `Log` (true) or `Logf` (false) call carrying its rendered text. -/
def logCall (c : Bool × String) : Prog :=
  cond c.1 (Prog.log c.2) (Prog.logf c.2)

/-- A finite sequence of `Log`/`Logf` calls, in call order. -/
def logProg : List (Bool × String) → Prog
  | [] => Prog.nop
  | c :: cs => Prog.seq (logCall c) (logProg cs)

/-- Flag order on a single context: flags may only go from false to true. -/
def frameLe (a b : Frame) : Prop :=
  a.failed ≤ b.failed ∧ a.skipped ≤ b.skipped

/-- Pointwise flag order on context chains of equal shape. -/
def stackLe : Stack → Stack → Prop := List.Forall₂ frameLe

theorem frameLe_refl (a : Frame) : frameLe a a := ⟨le_refl _, le_refl _⟩

theorem stackLe_refl (st : Stack) : stackLe st st := by
  induction st with
  | nil => exact List.Forall₂.nil
  | cons f rest ih => exact List.Forall₂.cons (frameLe_refl f) ih

theorem stackLe_trans {s t u : Stack} (h1 : stackLe s t) (h2 : stackLe t u) :
    stackLe s u := by
  induction h1 generalizing u with
  | nil => exact h2
  | cons hab htail ih =>
      cases h2 with
      | cons hbc htail2 =>
          exact List.Forall₂.cons
            ⟨le_trans hab.1 hbc.1, le_trans hab.2 hbc.2⟩ (ih htail2)

theorem stackLe_tail {a : Frame} {s t : Stack} (h : stackLe (a :: s) t) :
    stackLe s t.tail := by
  cases h with
  | cons _ htail => exact htail

theorem logTop_le (s : String) (st : Stack) : stackLe st (logTop s st) := by
  cases st with
  | nil => exact List.Forall₂.nil
  | cons f rest =>
      exact List.Forall₂.cons ⟨le_refl _, le_refl _⟩ (stackLe_refl rest)

theorem failAll_le (st : Stack) : stackLe st (failAll st) := by
  induction st with
  | nil => exact List.Forall₂.nil
  | cons f rest ih => exact List.Forall₂.cons ⟨Bool.le_true _, le_refl _⟩ ih

theorem failTop_le (st : Stack) : stackLe st (failTop st) := by
  cases st with
  | nil => exact List.Forall₂.nil
  | cons f rest =>
      exact List.Forall₂.cons ⟨Bool.le_true _, le_refl _⟩ (stackLe_refl rest)

theorem skipTop_le (st : Stack) : stackLe st (skipTop st) := by
  cases st with
  | nil => exact List.Forall₂.nil
  | cons f rest =>
      exact List.Forall₂.cons ⟨le_refl _, Bool.le_true _⟩ (stackLe_refl rest)

theorem recoverSub_le (r : Stack × Outcome) : stackLe r.1 (recoverSub r) := by
  rcases r with ⟨st, out⟩
  rcases out with _ | v
  · exact stackLe_refl st
  · rcases v with _ | _ | s
    · exact stackLe_refl st
    · exact stackLe_refl st
    · exact stackLe_trans (logTop_le _ st)
        (stackLe_trans (failAll_le _)
          (stackLe_trans (logTop_le _ _) (failAll_le _)))

theorem failAll_forall (st : Stack) :
    ((failAll st).all fun f => f.failed) = true := by
  induction st with
  | nil => rfl
  | cons f rest ih => simp [failAll, List.all_cons]

theorem logProg_exec (calls : List (Bool × String)) (f : Frame) (rest : Stack) :
    exec (logProg calls) (f :: rest) =
      ({ f with logs := f.logs ++ calls.map fun c => c.2 ++ "\n" } :: rest,
        Outcome.normal) := by
  induction calls generalizing f with
  | nil => simp [logProg, exec]
  | cons c cs ih =>
      rcases c with ⟨b, s⟩
      cases b <;>
        simp [logProg, logCall, exec, logTop, ih, List.append_assoc]

/-- Claim C1 counterexample: a subtest whose callback only skips ends with
`isFailed() == false` on the child, yet `T.Run` returns `false` — on a
recovered panic the unnamed boolean result keeps Go's zero value, the
`return !sub.Failed()` statement never having run. -/
theorem runt_C1_cex :
    (runSubtest "sub" Prog.skipNow [Frame.init "test"]).2 = false ∧
    (childFrame "sub" Prog.skipNow [Frame.init "test"]).failed = false ∧
    (childFrame "sub" Prog.skipNow [Frame.init "test"]).skipped = true :=
  ⟨rfl, rfl, rfl⟩

/-- Claim C1 (amended): `T.Run` returns `true` iff the child callback
returned normally AND the child ends with `isFailed() == false`; every
intercepted non-local exit — including a pure skip, where `isFailed()` is
false — yields `false`, because the recovered frame returns the zero value
of the unnamed boolean result. -/
theorem runt_C1 (name : String) (body : Prog) (st : Stack) :
    (runSubtest name body st).2 = true ↔
      ((exec body (Frame.init name :: st)).2 = Outcome.normal ∧
        (childFrame name body st).failed = false) := by
  unfold runSubtest childFrame
  rcases h : exec body (Frame.init name :: st) with ⟨st1, out⟩
  rcases out with _ | v
  · simp [subtestReturn, recoverSub]
  · rcases v with _ | _ | s <;> simp [subtestReturn, recoverSub]

/-- Claim C2 (code bug): `FailNow` sets `failed` on the current context
only — it never walks the parent chain, unlike `Fail` — so after a child
context's `FailNow` the parent is still unfailed, and a whole top-level run
whose subtest dies by `Fatal` reports success, contradicting `T.Run`'s own
documentation that any failure in the subtest also marks the parent as
failed. -/
theorem runt_C2 :
    (exec Prog.failNow [Frame.init "sub", Frame.init "root"]).2 =
        Outcome.panicked PanicVal.testFailed ∧
    ((exec Prog.failNow [Frame.init "sub", Frame.init "root"]).1.headD
        default).failed = true ∧
    ((exec Prog.failNow [Frame.init "sub", Frame.init "root"]).1.getD 1
        default).failed = false ∧
    run (Prog.run "sub" (Prog.fatal "boom")) = none :=
  ⟨rfl, rfl, rfl, rfl⟩

/-- Claim C3 counterexample: the top-level `Run` never logs an execution
trace — its recover block only calls `t.Errorf("PANIC: %v", x)`.  A
callback aborting with a value that is not a simple descriptive object
(e.g. Go's `struct\x7b\x7d\x7b\x7d`, rendered "\x7b\x7d") produces exactly
one logged line, containing no captured trace. -/
theorem runt_C3_cex :
    run (Prog.abort (PanicVal.other "\x7b\x7d")) =
        some "test failed:\nPANIC: \x7b\x7d\n" ∧
    (rootAfter (Prog.abort (PanicVal.other "\x7b\x7d"))).logs =
        ["PANIC: \x7b\x7d\n"] ∧
    hasSubstr "test failed:\nPANIC: \x7b\x7d\n" stackTrace = false :=
  ⟨rfl, rfl, rfl⟩

/-- Claim C3 (amended): on an unexpected non-local exit the top-level `Run`
records a failure by logging exactly one line, "PANIC: " plus the value's
rendering, and returns a failure whose message is the "test failed:"
header followed by that single line; no execution trace is captured at the
top-level boundary for any exit value (trace capture happens only at
subtest boundaries, and there unconditionally). -/
theorem runt_C3 (v : String) :
    run (Prog.abort (PanicVal.other v)) =
        some ("test failed:\n" ++ (("PANIC: " ++ v) ++ "\n")) ∧
    (rootAfter (Prog.abort (PanicVal.other v))).logs =
        [("PANIC: " ++ v) ++ "\n"] ∧
    (rootAfter (Prog.abort (PanicVal.other v))).failed = true :=
  ⟨rfl, rfl, rfl⟩

/-- Claim C4: after the callback invocation completes, `Run` returns the
error `"test failed:\n"` concatenated with the root's full log text when
`root.isFailed()` is true, and nil when it is false — the skipped flag
plays no part in the decision. -/
theorem runt_C4 (body : Prog) :
    ((rootAfter body).failed = true →
      run body = some ("test failed:\n" ++ (rootAfter body).logText)) ∧
    ((rootAfter body).failed = false → run body = none) := by
  unfold run
  constructor <;> intro h <;> rw [h] <;> rfl

/-- Claim C4 witness: a concrete failing run produces the message built
from the root's log text. -/
theorem runt_C4_witness :
    run (Prog.error "boom") =
      some ("test failed:\n" ++ (rootAfter (Prog.error "boom")).logText) :=
  (runt_C4 (Prog.error "boom")).1 rfl

/-- Claim C5: `Error`/`Errorf` (and the underlying `Fail`) mark the current
context and every ancestor up to the root as failed, and return normally —
no panic is raised, execution continues in the same frame. -/
theorem runt_C5 (s : String) (st : Stack) :
    (exec (Prog.error s) st).2 = Outcome.normal ∧
    ((exec (Prog.error s) st).1.all fun f => f.failed) = true ∧
    (exec (Prog.errorf s) st).2 = Outcome.normal ∧
    ((exec (Prog.errorf s) st).1.all fun f => f.failed) = true ∧
    (exec Prog.fail st).2 = Outcome.normal ∧
    ((exec Prog.fail st).1.all fun f => f.failed) = true :=
  ⟨rfl, failAll_forall _, rfl, failAll_forall _, rfl, failAll_forall _⟩

/-- Claim C6: `SkipNow` sets `skipped` on the current context only, leaving
every ancestor frame completely unchanged, and aborts with the skip marker
(it never returns normally); a root-level skip makes the top-level `Run`
return nil. -/
theorem runt_C6 (f : Frame) (rest : Stack) :
    exec Prog.skipNow (f :: rest) =
      ({ f with skipped := true } :: rest,
        Outcome.panicked PanicVal.testSkipped) ∧
    run Prog.skipNow = none ∧
    ∀ s : String, run (Prog.skip s) = none :=
  ⟨rfl, rfl, fun _ => rfl⟩

/-- Claim C7: a top-level callback that calls `Fatal("boom")` and then
`Log("after")` in the same frame yields a failure message containing
"boom" but not "after" — the failure panic makes the rest of the frame
unreachable, whatever it is. -/
theorem runt_C7 (rest : Prog) :
    run (Prog.seq (Prog.fatal "boom") rest) = some "test failed:\nboom\n" ∧
    hasSubstr "test failed:\nboom\n" "boom" = true ∧
    hasSubstr "test failed:\nboom\n" "after" = false :=
  ⟨rfl, rfl, rfl⟩

/-- Claim C8: a sequence of `Log`/`Logf` calls leaves the log buffer
holding exactly one newline-terminated line per call, in call order, and
`Logs()` returns their concatenation. -/
theorem runt_C8 (calls : List (Bool × String)) (name : String) :
    ((exec (logProg calls) [Frame.init name]).1.headD default).logs =
        (calls.map fun c => c.2 ++ "\n") ∧
    ((exec (logProg calls) [Frame.init name]).1.headD default).logText =
        String.join (calls.map fun c => c.2 ++ "\n") ∧
    (exec (logProg calls) [Frame.init name]).2 = Outcome.normal := by
  have h := logProg_exec calls (Frame.init name) []
  rw [h]
  simp [Frame.logText, Frame.init]

/-- Claim C9: a callback that panics with either recognized marker value
directly (bypassing `SkipNow`/`FailNow`) is absorbed silently by the
top-level recover block: no flag is set, nothing is logged, and `Run`
returns nil. -/
theorem runt_C9 (v : PanicVal)
    (h : v = PanicVal.testFailed ∨ v = PanicVal.testSkipped) :
    run (Prog.abort v) = none ∧
    (rootAfter (Prog.abort v)).failed = false ∧
    (rootAfter (Prog.abort v)).logs = [] := by
  rcases h with h | h <;> subst h <;> exact ⟨rfl, rfl, rfl⟩

/-- Claim C9 witness: the skip marker raised directly yields a passing run
with a clean root context. -/
theorem runt_C9_witness :
    run (Prog.abort PanicVal.testSkipped) = none ∧
    (rootAfter (Prog.abort PanicVal.testSkipped)).failed = false ∧
    (rootAfter (Prog.abort PanicVal.testSkipped)).logs = [] :=
  runt_C9 PanicVal.testSkipped (Or.inr rfl)

/-- Claim C10: the `failed` and `skipped` flags are monotonic — executing
any test logic (logging, failing, terminating, skipping, subtests) from
any chain of contexts never resets a flag that is already true, on the
current context or on any ancestor. -/
theorem runt_C10 (p : Prog) (st : Stack) : stackLe st (exec p st).1 := by
  induction p generalizing st with
  | nop => exact stackLe_refl st
  | log s => exact logTop_le s st
  | logf s => exact logTop_le s st
  | error s => exact stackLe_trans (logTop_le s st) (failAll_le _)
  | errorf s => exact stackLe_trans (logTop_le s st) (failAll_le _)
  | fail => exact failAll_le st
  | failNow => exact failTop_le st
  | fatal s => exact stackLe_trans (logTop_le s st) (failTop_le _)
  | fatalf s => exact stackLe_trans (logTop_le s st) (failTop_le _)
  | skipNow => exact skipTop_le st
  | skip s => exact stackLe_trans (logTop_le s st) (skipTop_le _)
  | skipf s => exact stackLe_trans (logTop_le s st) (skipTop_le _)
  | abort v => exact stackLe_refl st
  | run name body ih =>
      have h1 : stackLe (Frame.init name :: st)
          (recoverSub (exec body (Frame.init name :: st))) :=
        stackLe_trans (ih (Frame.init name :: st))
          (recoverSub_le (exec body (Frame.init name :: st)))
      exact stackLe_tail h1
  | seq p q ihp ihq =>
      rcases h : exec p st with ⟨st1, out⟩
      have hp : stackLe st st1 := by
        have := ihp st
        rw [h] at this
        exact this
      rcases out with _ | v
      · have hq := ihq st1
        simpa [exec, h] using stackLe_trans hp hq
      · simpa [exec, h] using hp

end Runt
